import Mathlib

/-!
# Verification of the LTTng split-counter engine

Shallow embedding of the counter library found in this repository:
  * `counter/counter-api.h`   (index validation, `__lttng_counter_add` and friends)
  * `counter/counter-internal.h` (`lttng_counter_get_index`)
  * `counter/counter-types.h` (data model)
  * `counter.c`               (creation, stride initialisation, read, aggregate)

Machine integers are modelled as `Int` together with explicit reduction into
the signed `w`-bit window (`toSigned`): a C expression such as
`(int8_t)((uint8_t)old + (uint8_t)v)` computes the representative of
`old + v` modulo `2^8` lying in `[-2^7, 2^7)`, which is exactly
`toSigned 8 (old + v)`.  The kernel builds this code with wrapping signed
arithmetic, so the same reduction models every in-code narrowing.

Concurrency: the add paths are compare-and-swap retry loops.  In the
sequential semantics embedded here a compare-and-swap always succeeds on the
first attempt, so each loop body executes exactly once.  The distinction
between `cmpxchg_local` and `cmpxchg` has no sequential content; what the
code keys on the `sync` parameter (the migration decision) is embedded
faithfully.
-/

namespace LttngCounter

/-- Representative of `x` modulo `2^w` in the window `[-2^(w-1), 2^(w-1))`:
the value of a `w`-bit signed machine word holding the bit pattern of `x`. -/
def toSigned (w : Nat) (x : Int) : Int :=
  (x + 2 ^ (w - 1)) % 2 ^ w - 2 ^ (w - 1)

theorem pow_split (w : Nat) (hw : 1 ≤ w) :
    (2 : Int) ^ w = 2 ^ (w - 1) + 2 ^ (w - 1) := by
  conv_lhs => rw [show w = (w - 1) + 1 by omega]
  rw [pow_succ]
  ring

theorem toSigned_nonneg_bound (w : Nat) (x : Int) :
    -(2 ^ (w - 1)) ≤ toSigned w x := by
  unfold toSigned
  have hpos : (0 : Int) < 2 ^ w := by positivity
  have := Int.emod_nonneg (x + 2 ^ (w - 1)) (ne_of_gt hpos)
  omega

theorem toSigned_lt_bound (w : Nat) (hw : 1 ≤ w) (x : Int) :
    toSigned w x < 2 ^ (w - 1) := by
  unfold toSigned
  have hpos : (0 : Int) < 2 ^ w := by positivity
  have hlt := Int.emod_lt_of_pos (x + 2 ^ (w - 1)) hpos
  have hsplit := pow_split w hw
  omega

theorem toSigned_eq_self (w : Nat) (hw : 1 ≤ w) (x : Int)
    (h1 : -(2 ^ (w - 1)) ≤ x) (h2 : x < 2 ^ (w - 1)) :
    toSigned w x = x := by
  unfold toSigned
  have hsplit := pow_split w hw
  have : (x + 2 ^ (w - 1)) % 2 ^ w = x + 2 ^ (w - 1) :=
    Int.emod_eq_of_lt (by omega) (by omega)
  omega

/-- The value `toSigned w x` is congruent to `x` modulo `2^w`. -/
theorem toSigned_sub_dvd (w : Nat) (x : Int) :
    (2 ^ w : Int) ∣ (x - toSigned w x) := by
  have h := Int.emod_def (x + 2 ^ (w - 1)) (2 ^ w)
  refine ⟨(x + 2 ^ (w - 1)) / 2 ^ w, ?_⟩
  unfold toSigned
  omega

theorem toSigned_add_left (w : Nat) (a b : Int) :
    toSigned w (toSigned w a + b) = toSigned w (a + b) := by
  obtain ⟨q, hq⟩ := toSigned_sub_dvd w a
  have h2 : toSigned w a + b = a + b + 2 ^ w * (-q) := by
    have : (2 : Int) ^ w * (-q) = -(2 ^ w * q) := by ring
    omega
  rw [h2]
  unfold toSigned
  rw [add_right_comm (a + b) (2 ^ w * (-q)) (2 ^ (w - 1)),
    Int.add_mul_emod_self_left]

/-! ## Data model (`counter/counter-types.h`, `counter/config.h`) -/

/-- The C `enum lib_counter_config_alloc` (config.h lines 16-24). -/
inductive CounterAlloc where
  | PER_CPU
  | GLOBAL
deriving DecidableEq, Repr

/-- The C `enum lib_counter_config_sync` (config.h lines 26-29). -/
inductive CounterSync where
  | PER_CPU
  | GLOBAL
deriving DecidableEq, Repr

/-- The anonymous `arithmetic` enum of `struct lib_counter_config`. -/
inductive CounterArithmetic where
  | OVERFLOW
  | SATURATE
deriving DecidableEq, Repr

/-- The C `struct lib_counter_config` (config.h lines 31-44).  `counter_size` is the
cell size in bytes (the enum values COUNTER_SIZE_8/16/32/64_BIT are 1/2/4/8). -/
structure LibCounterConfig where
  alloc : CounterAlloc
  sync : CounterSync
  arithmetic : CounterArithmetic
  counter_size : Nat
deriving DecidableEq, Repr

/-- The C `struct lib_counter_dimension` (counter-types.h lines 27-49). -/
structure LibCounterDimension where
  max_nr_elem : Int
  stride : Int
deriving DecidableEq, Repr

/-- The C `struct lib_counter_layout` (counter-types.h lines 51-55): the flat cell
array and the two sticky bitmaps, all indexed by the flat offset. -/
structure LibCounterLayout where
  counters : List Int
  underflow_bitmap : List Bool
  overflow_bitmap : List Bool
deriving DecidableEq, Repr

/-- The C `struct lib_counter` (counter-types.h lines 62-85).  `global_sum_step`
holds the value of whichever union member the configured width selects
(`s8`/`s16`/`s32`/`s64`); `lttng_counter_set_global_sum_step` guarantees it
fits the configured width.  `percpu_backing_allocated` records whether
`alloc_percpu` was invoked at creation (counter.c lines 164-168): the per-cpu
layout-initialisation loop of `lttng_counter_create` (lines 179-183) runs
regardless of the allocation mode, which `percpu_counters` being populated in
both modes mirrors. -/
structure LibCounter where
  dimensions : List LibCounterDimension
  allocated_elem : Int
  global_sum_step : Int
  config : LibCounterConfig
  global_counters : LibCounterLayout
  percpu_counters : List LibCounterLayout
  percpu_backing_allocated : Bool
deriving DecidableEq, Repr

/-- Cell width in bits for a configured cell size in bytes. -/
def widthOf (counter_size : Nat) : Nat := 8 * counter_size

/-! ## Index resolution (`counter-api.h` lines 19-45, `counter-internal.h`) -/

/-- counter-api.h lines 19-22. -/
def lttng_counter_underflow_index (dimension : LibCounterDimension) : Int :=
  dimension.max_nr_elem + 1

/-- counter-api.h lines 24-27. -/
def lttng_counter_overflow_index (dimension : LibCounterDimension) : Int :=
  dimension.max_nr_elem + 2

/-- Loop body of `lttng_counter_validate_indexes` (counter-api.h lines 36-44). -/
def validate_one_index (dimension : LibCounterDimension) (dimension_index : Int) : Int :=
  if dimension_index < 0 then lttng_counter_underflow_index dimension
  else if dimension_index ≥ dimension.max_nr_elem then lttng_counter_overflow_index dimension
  else dimension_index

/-- counter-api.h lines 30-45: update `dimension_indexes` if an index is
outside range.  The C loop mutates the array in place; the result list holds
the updated indexes. -/
def lttng_counter_validate_indexes (dimensions : List LibCounterDimension)
    (dimension_indexes : List Int) : List Int :=
  List.zipWith validate_one_index dimensions dimension_indexes

/-- counter-internal.h lines 55-69: flat offset as the stride-weighted sum. -/
def lttng_counter_get_index (dimensions : List LibCounterDimension)
    (dimension_indexes : List Int) : Int :=
  (List.zipWith (fun d i => i * d.stride) dimensions dimension_indexes).sum

/-! ## The add primitive (`counter-api.h` lines 51-241)

The four width cases of `__lttng_counter_add` are textually identical modulo
the cell width; they are embedded once, parameterised by the width `w` in
bits.  The only width-dependent difference is the overflow/underflow
classification: the 8/16/32-bit cases include the `v >= U{8,16,32}_MAX`
(resp. `v <= -U{8,16,32}_MAX`) disjunct (lines 108-111, 147-150, 186-189)
while the 64-bit case does not (lines 226-229).  `U{w}_MAX` is `((u{w})~0U)`,
value `2^w - 1`; on the right of `>=` it converts to `int64_t` unchanged at
every width, but its negation follows C's type system — see `negUMax`. -/

/-- Post-swap overflow classification (counter-api.h lines 108-109 and the
analogous lines of the other width cases).  `stored` is the value written by
the successful compare-and-swap. -/
def overflowCheck (w : Nat) (old v stored : Int) : Bool :=
  v > 0 && ((w ≠ 64 && v ≥ 2 ^ w - 1) || stored < old)

/-- Value of the C expression `-U{w}_MAX` in the underflow classification.
`U8_MAX = ((u8)~0U)` and `U16_MAX = ((u16)~0U)` promote to `int` before the
unary minus, giving `-255` and `-65535`.  `U32_MAX = ((u32)~0U)` has the
unsigned type `u32`, which does not promote: `-U32_MAX` is computed modulo
`2^32` and equals `1`, so the 32-bit comparison `v <= -U32_MAX` is `v <= 1`
— satisfied by every negative delta. -/
def negUMax (w : Nat) : Int :=
  if w = 32 then 1 else -(2 ^ w - 1)

/-- Post-swap underflow classification (counter-api.h lines 110-111, 149-150
and 188-189; the 64-bit case, lines 228-229, carries no magnitude
disjunct). -/
def underflowCheck (w : Nat) (old v stored : Int) : Bool :=
  v < 0 && ((w ≠ 64 && v ≤ negUMax w) || stored > old)

/-- Result of one execution of a width case of `__lttng_counter_add`. -/
structure CellResult where
  stored : Int
  move_sum : Int
  overflow : Bool
  underflow : Bool
deriving DecidableEq, Repr

/-- One width case of `__lttng_counter_add` (counter-api.h lines 74-113 for
8-bit; the 16/32/64-bit cases are identical with their width).  Sequential
semantics: the compare-and-swap succeeds on the first attempt, so the retry
loop body runs once.

`COUNTER_SYNC_PER_CPU` branch (lines 83-97): `n = old + v` wrapped at the
width, then the migration decision against `global_sum_step` (C `/` is
truncating division, `Int.tdiv`), then `n -= move_sum` (again wrapped at the
width, as all narrow arithmetic in this code).

`COUNTER_SYNC_GLOBAL` branch (lines 98-106): plain wrapped add, `move_sum`
keeps its initial value 0. -/
def cellAdd (w : Nat) (sync : CounterSync) (global_sum_step : Int)
    (old v : Int) : CellResult :=
  match sync with
  | CounterSync.PER_CPU =>
    let n0 := toSigned w (old + v)
    let move_sum :=
      if n0 > global_sum_step then global_sum_step.tdiv 2
      else if n0 < -global_sum_step then -(global_sum_step.tdiv 2)
      else 0
    let n := toSigned w (n0 - move_sum)
    { stored := n, move_sum := move_sum,
      overflow := overflowCheck w old v n, underflow := underflowCheck w old v n }
  | CounterSync.GLOBAL =>
    let n := toSigned w (old + v)
    { stored := n, move_sum := 0,
      overflow := overflowCheck w old v n, underflow := underflowCheck w old v n }

/-- Sticky-bitmap update after the swap (counter-api.h lines 236-239):
`if (overflow && !test_bit) set_bit(overflow); else if (underflow && !test_bit)
set_bit(underflow)`.  Returns the new (overflow bit, underflow bit) pair. -/
def updateBitmaps (ofBit ufBit overflow underflow : Bool) : Bool × Bool :=
  if overflow && !ofBit then (true, ufBit)
  else if underflow && !ufBit then (ofBit, true)
  else (ofBit, ufBit)

/-- Effect of `__lttng_counter_add` on the selected layout at flat offset
`idx`: cell swap plus sticky-bitmap update.  Returns the updated layout and
`move_sum`. -/
def layoutAdd (w : Nat) (sync : CounterSync) (global_sum_step : Int)
    (l : LibCounterLayout) (idx : Nat) (v : Int) : LibCounterLayout × Int :=
  let old := l.counters.getD idx 0
  let r := cellAdd w sync global_sum_step old v
  let bits := updateBitmaps (l.overflow_bitmap.getD idx false)
    (l.underflow_bitmap.getD idx false) r.overflow r.underflow
  ({ counters := l.counters.set idx r.stored,
     overflow_bitmap := l.overflow_bitmap.set idx bits.1,
     underflow_bitmap := l.underflow_bitmap.set idx bits.2 }, r.move_sum)

/-- Layout selection of `__lttng_counter_add` (counter-api.h lines 66-73):
per-cpu layout of the executing cpu, or the global layout.  `cpu` stands for
`smp_processor_id()`. -/
def getLayout (c : LibCounter) (alloc : CounterAlloc) (cpu : Nat) : LibCounterLayout :=
  match alloc with
  | CounterAlloc.PER_CPU => c.percpu_counters.getD cpu (LibCounterLayout.mk [] [] [])
  | CounterAlloc.GLOBAL => c.global_counters

def setLayout (c : LibCounter) (alloc : CounterAlloc) (cpu : Nat)
    (l : LibCounterLayout) : LibCounter :=
  match alloc with
  | CounterAlloc.PER_CPU => { c with percpu_counters := c.percpu_counters.set cpu l }
  | CounterAlloc.GLOBAL => { c with global_counters := l }

/-- The function `__lttng_counter_add` (counter-api.h lines 51-241).  Returns the updated
counter and `move_sum` ("the amount which should be summed into global
counter").  Lines 62-65: an offset at or above `allocated_elem` is the
diagnostic branch, `WARN_ON_ONCE` and return 0 with no write.  The `default:`
branch of the width switch (lines 233-234) also performs no write and returns
0, modelled by the size guard.  (A negative flat offset would be an
out-of-bounds access in C and is not modelled; every claim below exercises
non-negative offsets only.) -/
def lttng_counter_add_step (alloc : CounterAlloc) (sync : CounterSync)
    (c : LibCounter) (cpu : Nat) (dimension_indexes : List Int) (v : Int) :
    LibCounter × Int :=
  let index := lttng_counter_get_index c.dimensions dimension_indexes
  if index ≥ c.allocated_elem then (c, 0)
  else if c.config.counter_size = 1 ∨ c.config.counter_size = 2 ∨
      c.config.counter_size = 4 ∨ c.config.counter_size = 8 then
    let w := widthOf c.config.counter_size
    let r := layoutAdd w sync c.global_sum_step (getLayout c alloc cpu) index.toNat v
    (setLayout c alloc cpu r.1, r.2)
  else (c, 0)

/-- The function `__lttng_counter_add_percpu` (counter-api.h lines 243-254): the shard
add with the configured alloc/sync, then, if `move_sum` is nonzero, a second
application against the global layout with `COUNTER_ALLOC_GLOBAL` /
`COUNTER_SYNC_GLOBAL` and `v = move_sum`. -/
def lttng_counter_add_percpu (c : LibCounter) (cpu : Nat)
    (dimension_indexes : List Int) (v : Int) : LibCounter :=
  let r := lttng_counter_add_step c.config.alloc c.config.sync c cpu dimension_indexes v
  if r.2 ≠ 0 then
    (lttng_counter_add_step CounterAlloc.GLOBAL CounterSync.GLOBAL r.1 cpu
      dimension_indexes r.2).1
  else r.1

/-- The function `__lttng_counter_add_global` (counter-api.h lines 256-262): a single
application with the counter's configured alloc and sync, `move_sum`
discarded. -/
def lttng_counter_add_global (c : LibCounter) (cpu : Nat)
    (dimension_indexes : List Int) (v : Int) : LibCounter :=
  (lttng_counter_add_step c.config.alloc c.config.sync c cpu dimension_indexes v).1

/-- The function `lttng_counter_add` (counter-api.h lines 264-276). -/
def lttng_counter_add (c : LibCounter) (cpu : Nat)
    (dimension_indexes : List Int) (v : Int) : LibCounter :=
  match c.config.alloc with
  | CounterAlloc.PER_CPU => lttng_counter_add_percpu c cpu dimension_indexes v
  | CounterAlloc.GLOBAL => lttng_counter_add_global c cpu dimension_indexes v

/-! ## Creation (`counter.c` lines 33-198) -/

/-- counter.c lines 33-36: allocated element count of one dimension,
including the underflow and overflow elements. -/
def lttng_counter_get_dimension_nr_elements (dimension : LibCounterDimension) : Int :=
  dimension.max_nr_elem + 2

/-- counter.c lines 38-50: strides from the innermost dimension outward
(innermost stride 1); the stride of a dimension is the product of the
allocated sizes of all dimensions nested inside it. -/
def lttng_counter_init_stride : List Int → List LibCounterDimension
  | [] => []
  | m :: rest =>
    { max_nr_elem := m,
      stride := ((rest.map (· + 2)).prod) } :: lttng_counter_init_stride rest

/-- counter.c lines 172-174: `allocated_elem` as the product over all
dimensions of the allocated (max_nr_elem + 2) sizes. -/
def allocatedElem (max_nr_elem : List Int) : Int :=
  (max_nr_elem.map (· + 2)).prod

/-- A freshly `lttng_kvzalloc`ed layout (counter.c lines 52-90): all cells 0,
all sticky bits clear. -/
def zeroLayout (n : Nat) : LibCounterLayout :=
  { counters := List.replicate n 0,
    underflow_bitmap := List.replicate n false,
    overflow_bitmap := List.replicate n false }

/-- The function `lttng_counter_set_global_sum_step` (counter.c lines 106-137): rejects a
negative step, then checks the step against the signed maximum of the
configured width (`S8_MAX`/`S16_MAX`/`S32_MAX`; no check at 64-bit) and
stores it in the matching union member (the narrowing casts are exact after
the checks).  `-EINVAL = -22`. -/
def lttng_counter_set_global_sum_step (counter_size : Nat) (global_sum_step : Int) :
    Except Int Int :=
  if global_sum_step < 0 then Except.error (-22)
  else match counter_size with
    | 1 => if global_sum_step > 127 then Except.error (-22) else Except.ok global_sum_step
    | 2 => if global_sum_step > 32767 then Except.error (-22) else Except.ok global_sum_step
    | 4 => if global_sum_step > 2147483647 then Except.error (-22)
           else Except.ok global_sum_step
    | 8 => Except.ok global_sum_step
    | _ => Except.error (-22)

/-- The function `lttng_counter_create` (counter.c lines 139-198), allocation successes
assumed (allocation failure is an environment event, out of the sequential
semantics) and a 64-bit platform assumed (`BITS_PER_LONG == 64`, so the
width check of lines 148-151 passes).  The step validation failure path
(lines 156-157) returns NULL, modelled as `none`.  `alloc_percpu` is invoked
only for `COUNTER_ALLOC_PER_CPU` (lines 164-168), recorded in
`percpu_backing_allocated`; the per-cpu layout-initialisation loop of lines
179-183 runs for every possible cpu in BOTH allocation modes (there is no
guard on `config->alloc`), which is why `percpu_counters` is populated
unconditionally here.  `nr_cpus` stands for `num_possible_cpus()`. -/
def lttng_counter_create (config : LibCounterConfig) (max_nr_elem : List Int)
    (global_sum_step : Int) (nr_cpus : Nat) : Option LibCounter :=
  match lttng_counter_set_global_sum_step config.counter_size global_sum_step with
  | Except.error _ => none
  | Except.ok step =>
    let nr_elem := allocatedElem max_nr_elem
    some { dimensions := lttng_counter_init_stride max_nr_elem,
           allocated_elem := nr_elem,
           global_sum_step := step,
           config := config,
           global_counters := zeroLayout nr_elem.toNat,
           percpu_counters := List.replicate nr_cpus (zeroLayout nr_elem.toNat),
           percpu_backing_allocated := config.alloc = CounterAlloc.PER_CPU }

/-- The cpu arguments with which `lttng_counter_create` invokes
`lttng_counter_layout_init` (counter.c lines 175-183): `-1` (global) followed
by every possible cpu — the loop of lines 179-183 carries no condition on the
allocation mode. -/
def lttng_counter_create_layout_init_targets (nr_cpus : Nat) : List Int :=
  -1 :: (List.range nr_cpus).map Int.ofNat

/-! ## Read and aggregate (`counter.c` lines 213-328) -/

/-- The function `lttng_counter_read` (counter.c lines 213-277).  Returns
`(value, overflow bit, underflow bit)` or an error: `-EOVERFLOW = -75` for an
offset at or above `allocated_elem` (lines 222-225), `-EINVAL = -22` for an
invalid cpu selector (lines 226-243).  The width switch (lines 244-273) reads
the cell and sign-extends to `int64_t`; cells are already stored as their
signed values here, so the read is the cell itself. -/
def lttng_counter_read (c : LibCounter) (dimension_indexes : List Int) (cpu : Int) :
    Except Int (Int × Bool × Bool) :=
  let index := lttng_counter_get_index c.dimensions dimension_indexes
  if index ≥ c.allocated_elem then Except.error (-75)
  else
    let readLayout := fun (l : LibCounterLayout) =>
      Except.ok (l.counters.getD index.toNat 0,
        l.overflow_bitmap.getD index.toNat false,
        l.underflow_bitmap.getD index.toNat false)
    match c.config.alloc with
    | CounterAlloc.PER_CPU =>
      if 0 ≤ cpu then
        if cpu ≥ c.percpu_counters.length then Except.error (-22)
        else readLayout (c.percpu_counters.getD cpu.toNat (zeroLayout 0))
      else readLayout c.global_counters
    | CounterAlloc.GLOBAL =>
      if 0 ≤ cpu then Except.error (-22)
      else readLayout c.global_counters

/-- Per-cpu accumulation loop of `lttng_counter_aggregate` (counter.c lines
304-319).  State is `(sum, overflow, underflow)`.  Each iteration ORs the
cpu's sticky bits in, accumulates with unsigned 64-bit wraparound, and
reclassifies: `if (v > 0 && sum < old) overflow; else if (v < 0 && sum > old)
underflow`. -/
def aggregateCpus (c : LibCounter) (dimension_indexes : List Int) :
    List Nat → Int × Bool × Bool → Except Int (Int × Bool × Bool)
  | [], st => Except.ok st
  | cpu :: rest, (sum, of, uf) =>
    match lttng_counter_read c dimension_indexes (Int.ofNat cpu) with
    | Except.error e => Except.error e
    | Except.ok (v, cof, cuf) =>
      let old := sum
      let of1 := of || cof
      let uf1 := uf || cuf
      let sum1 := toSigned 64 (old + v)
      let st1 :=
        if v > 0 ∧ sum1 < old then (sum1, true, uf1)
        else if v < 0 ∧ sum1 > old then (sum1, of1, true)
        else (sum1, of1, uf1)
      aggregateCpus c dimension_indexes rest st1

/-- The function `lttng_counter_aggregate` (counter.c lines 280-328): read the global
cell (`cpu = -1`), then, in `COUNTER_ALLOC_PER_CPU` mode, fold the per-cpu
accumulation over every possible cpu.  `sum` starts at 0, so after line 297
it equals the global cell's value. -/
def lttng_counter_aggregate (c : LibCounter) (dimension_indexes : List Int) :
    Except Int (Int × Bool × Bool) :=
  match lttng_counter_read c dimension_indexes (-1) with
  | Except.error e => Except.error e
  | Except.ok (v, of, uf) =>
    match c.config.alloc with
    | CounterAlloc.PER_CPU =>
      aggregateCpus c dimension_indexes (List.range c.percpu_counters.length) (v, of, uf)
    | CounterAlloc.GLOBAL => Except.ok (v, of, uf)

/-! ## Claims -/

/-- C1: the claim states that `lttng_counter_validate_indexes` substitutes
the underflow sentinel `max_nr_elem` for an index `< 0` and the overflow
sentinel `max_nr_elem + 1` for an index `>= max_nr_elem`.  The code instead
substitutes `max_nr_elem + 1` (underflow) and `max_nr_elem + 2` (overflow):
with only `max_nr_elem + 2` slots allocated per dimension (valid offsets
`0 .. max_nr_elem + 1`), the code's overflow sentinel lies outside the
allocated room documented in counter-types.h.  Evaluation at a dimension with
`max_nr_elem = 1`: index `-1` becomes `2` (not `1`), index `1` becomes `3`
(not `2`). -/
theorem c1_sentinel_substitution_off_by_one :
    lttng_counter_validate_indexes [⟨1, 1⟩] [-1] = [2] ∧
    lttng_counter_validate_indexes [⟨1, 1⟩] [-1] ≠ [1] ∧
    lttng_counter_validate_indexes [⟨1, 1⟩] [1] = [3] ∧
    lttng_counter_validate_indexes [⟨1, 1⟩] [1] ≠ [2] := by decide

/-- The counter of a concrete creation call used to evaluate C2:
`lttng_counter_create` with a single dimension of `max_nr_elem = 1`,
32-bit cells, global allocation, step 0, no per-cpu shard. -/
def c2counter : LibCounter :=
  { dimensions := [⟨1, 1⟩],
    allocated_elem := 3,
    global_sum_step := 0,
    config := ⟨CounterAlloc.GLOBAL, CounterSync.GLOBAL, CounterArithmetic.OVERFLOW, 4⟩,
    global_counters := zeroLayout 3,
    percpu_counters := [],
    percpu_backing_allocated := false }

/-- C2: the claim states that validation followed by
`lttng_counter_get_index` always yields `0 ≤ offset < allocated_elem`, making
the diagnostic branch of `__lttng_counter_add` unreachable.  Evaluation at a
single dimension with `max_nr_elem = 1` (strides computed exactly as at
creation) and supplied index `5`: the validated offset is `3` while
`allocated_elem = 3`, so `offset < allocated_elem` fails, and
`__lttng_counter_add` at that offset takes the diagnostic branch: the
counter is returned unchanged with `move_sum = 0` (the add is dropped). -/
theorem c2_validated_offset_reaches_allocated_elem :
    lttng_counter_get_index (lttng_counter_init_stride [1])
      (lttng_counter_validate_indexes (lttng_counter_init_stride [1]) [5]) = 3 ∧
    allocatedElem [1] = 3 ∧
    ¬ (lttng_counter_get_index (lttng_counter_init_stride [1])
        (lttng_counter_validate_indexes (lttng_counter_init_stride [1]) [5]) <
          allocatedElem [1]) ∧
    lttng_counter_create
      ⟨CounterAlloc.GLOBAL, CounterSync.GLOBAL, CounterArithmetic.OVERFLOW, 4⟩ [1] 0 0 =
      some c2counter ∧
    lttng_counter_add_step CounterAlloc.GLOBAL CounterSync.GLOBAL c2counter 0
      (lttng_counter_validate_indexes c2counter.dimensions [5]) 7 = (c2counter, 0) := by
  decide

/-- C3: the claim states that with allocation mode `COUNTER_ALLOC_GLOBAL` no
per-shard Cell Storage exists.  In the code, `alloc_percpu` is indeed not
invoked (first conjunct), but the layout-initialisation loop of
`lttng_counter_create` (counter.c lines 179-183) carries no condition on the
allocation mode: with one possible cpu it invokes
`lttng_counter_layout_init` for cpu 0 as well as for the global instance
(second and third conjuncts), initialising per-shard Cell Storage through the
never-allocated (NULL) `percpu_counters` pointer. -/
theorem c3_percpu_layout_init_runs_in_global_mode :
    (lttng_counter_create
        ⟨CounterAlloc.GLOBAL, CounterSync.GLOBAL, CounterArithmetic.OVERFLOW, 4⟩ [1] 0 1).map
      (fun c => (c.percpu_backing_allocated, c.percpu_counters.length)) =
      some (false, 1) ∧
    lttng_counter_create_layout_init_targets 1 = [-1, 0] ∧
    lttng_counter_create_layout_init_targets 1 ≠ [-1] := by decide

/-- C9: for a single dimension with `max_nr_elem = N` (`N ≥ 0`, as dimension
sizes originate from `size_t` values) and any stride, index resolution is
constant on each out-of-range side: every `i < 0` resolves to the flat offset
of index `-1`, and every `j ≥ N` resolves to the flat offset of index `N`. -/
theorem c9_out_of_range_resolution_constant (N s i j : Int)
    (hN : 0 ≤ N) (hi : i < 0) (hj : N ≤ j) :
    lttng_counter_get_index [⟨N, s⟩] (lttng_counter_validate_indexes [⟨N, s⟩] [i]) =
      lttng_counter_get_index [⟨N, s⟩] (lttng_counter_validate_indexes [⟨N, s⟩] [-1]) ∧
    lttng_counter_get_index [⟨N, s⟩] (lttng_counter_validate_indexes [⟨N, s⟩] [j]) =
      lttng_counter_get_index [⟨N, s⟩] (lttng_counter_validate_indexes [⟨N, s⟩] [N]) := by
  unfold lttng_counter_validate_indexes validate_one_index
  simp only [List.zipWith]
  rw [if_pos hi, if_pos (show (-1 : Int) < 0 by omega),
    if_neg (show ¬ (j < 0) by omega), if_pos (show j ≥ N from hj),
    if_neg (show ¬ (N < 0) by omega), if_pos (le_refl N)]
  exact ⟨rfl, rfl⟩

/-- Witness for C9 at `N = 2`, stride 1, `i = -5`, `j = 7`. -/
theorem c9_witness :
    ((0 : Int) ≤ 2 ∧ (-5 : Int) < 0 ∧ (2 : Int) ≤ 7) ∧
    (lttng_counter_get_index [⟨2, 1⟩] (lttng_counter_validate_indexes [⟨2, 1⟩] [-5]) =
      lttng_counter_get_index [⟨2, 1⟩] (lttng_counter_validate_indexes [⟨2, 1⟩] [-1]) ∧
    lttng_counter_get_index [⟨2, 1⟩] (lttng_counter_validate_indexes [⟨2, 1⟩] [7]) =
      lttng_counter_get_index [⟨2, 1⟩] (lttng_counter_validate_indexes [⟨2, 1⟩] [2])) :=
  ⟨by decide, c9_out_of_range_resolution_constant 2 1 (-5) 7 (by decide) (by decide) (by decide)⟩

/-- C10: a negative `global_sum_step` makes
`lttng_counter_set_global_sum_step` return `-EINVAL` for every configured
cell width, and consequently `lttng_counter_create` fails (returns no
counter), regardless of whether the magnitude fits the width. -/
theorem c10_negative_sum_step_rejected (config : LibCounterConfig)
    (max_nr_elem : List Int) (nr_cpus : Nat) (g : Int) (h : g < 0) :
    lttng_counter_set_global_sum_step config.counter_size g = Except.error (-22) ∧
    lttng_counter_create config max_nr_elem g nr_cpus = none := by
  have hs : lttng_counter_set_global_sum_step config.counter_size g =
      Except.error (-22) := by
    unfold lttng_counter_set_global_sum_step
    rw [if_pos h]
  refine ⟨hs, ?_⟩
  unfold lttng_counter_create
  rw [hs]

/-- Witness for C10 at step `-1` (a magnitude that fits the 8-bit width). -/
theorem c10_witness :
    (-1 : Int) < 0 ∧
    (lttng_counter_set_global_sum_step
        (LibCounterConfig.mk CounterAlloc.PER_CPU CounterSync.PER_CPU
          CounterArithmetic.OVERFLOW 1).counter_size (-1) = Except.error (-22) ∧
      lttng_counter_create
        (LibCounterConfig.mk CounterAlloc.PER_CPU CounterSync.PER_CPU
          CounterArithmetic.OVERFLOW 1) [1] (-1) 1 = none) :=
  ⟨by decide,
    c10_negative_sum_step_rejected _ [1] 1 (-1) (by decide)⟩

/-- A counter created with `COUNTER_ALLOC_GLOBAL` but `COUNTER_SYNC_PER_CPU`,
8-bit cells, one dimension of `max_nr_elem = 1`, `global_sum_step = 4`:
the configuration refuting C4. -/
def c4counter : LibCounter :=
  { dimensions := [⟨1, 1⟩],
    allocated_elem := 3,
    global_sum_step := 4,
    config := ⟨CounterAlloc.GLOBAL, CounterSync.PER_CPU, CounterArithmetic.OVERFLOW, 1⟩,
    global_counters := zeroLayout 3,
    percpu_counters := [],
    percpu_backing_allocated := false }

/-- C4 counterexample: `__lttng_counter_add_global` passes the *configured*
sync mode (counter-api.h line 260), not `COUNTER_SYNC_GLOBAL`.  For a
`COUNTER_ALLOC_GLOBAL` counter configured with `COUNTER_SYNC_PER_CPU` and
`global_sum_step = 4`, `lttng_counter_add` of `v = 10` on the zeroed global
cell takes the shard-local discipline: the migration decision fires
(`move_sum = 2`, then discarded) and the stored value is `8`, not
`old + delta = 10` — refuting "never performs a migration decision ... the
stored value is old + delta ... regardless of the configured sync mode". -/
theorem c4_counterexample :
    lttng_counter_create
      ⟨CounterAlloc.GLOBAL, CounterSync.PER_CPU, CounterArithmetic.OVERFLOW, 1⟩ [1] 4 0 =
      some c4counter ∧
    (lttng_counter_add c4counter 0 [0] 10).global_counters.counters.getD 0 0 = 8 ∧
    toSigned 8 (0 + 10) = 10 ∧
    (lttng_counter_add c4counter 0 [0] 10).global_counters.counters.getD 0 0 ≠
      toSigned 8 (0 + 10) ∧
    (lttng_counter_add_step c4counter.config.alloc c4counter.config.sync c4counter 0
      [0] 10).2 = 2 := by decide

/-- C4 amended: for a counter with allocation mode `COUNTER_ALLOC_GLOBAL`
*and sync mode `COUNTER_SYNC_GLOBAL`* (the sync discipline is taken from the
configuration, not forced), `lttng_counter_add` applies the delta to the
global cell with no migration decision: the stored value is `old + delta`
wrapped at the cell width regardless of `global_sum_step`, the per-shard
storage is untouched, and the primitive's returned `move_sum` is 0. -/
theorem c4_amended_global_alloc_global_sync (c : LibCounter) (cpu : Nat)
    (idxs : List Int) (v : Int)
    (halloc : c.config.alloc = CounterAlloc.GLOBAL)
    (hsync : c.config.sync = CounterSync.GLOBAL)
    (hsize : c.config.counter_size = 1 ∨ c.config.counter_size = 2 ∨
      c.config.counter_size = 4 ∨ c.config.counter_size = 8)
    (hidx : lttng_counter_get_index c.dimensions idxs < c.allocated_elem) :
    (lttng_counter_add c cpu idxs v).global_counters.counters =
      c.global_counters.counters.set (lttng_counter_get_index c.dimensions idxs).toNat
        (toSigned (widthOf c.config.counter_size)
          (c.global_counters.counters.getD
            (lttng_counter_get_index c.dimensions idxs).toNat 0 + v)) ∧
    (lttng_counter_add c cpu idxs v).percpu_counters = c.percpu_counters ∧
    (lttng_counter_add_step c.config.alloc c.config.sync c cpu idxs v).2 = 0 := by
  have hnot : ¬ (lttng_counter_get_index c.dimensions idxs ≥ c.allocated_elem) :=
    not_le.mpr hidx
  simp only [lttng_counter_add, lttng_counter_add_global, lttng_counter_add_step,
    halloc, hsync, layoutAdd, cellAdd, getLayout, setLayout, if_neg hnot, if_pos hsize]
  refine ⟨?_, ?_, ?_⟩ <;> trivial

/-- A well-configured global counter (`COUNTER_ALLOC_GLOBAL`,
`COUNTER_SYNC_GLOBAL`, 8-bit cells, `global_sum_step = 4`) used as the C4
witness instance. -/
def c4wcounter : LibCounter :=
  { dimensions := [⟨1, 1⟩],
    allocated_elem := 3,
    global_sum_step := 4,
    config := ⟨CounterAlloc.GLOBAL, CounterSync.GLOBAL, CounterArithmetic.OVERFLOW, 1⟩,
    global_counters := zeroLayout 3,
    percpu_counters := [],
    percpu_backing_allocated := false }

/-- Witness for the amended C4 at a concrete global/global 8-bit counter. -/
theorem c4_witness :
    (c4wcounter.config.alloc = CounterAlloc.GLOBAL ∧
     c4wcounter.config.sync = CounterSync.GLOBAL ∧
     lttng_counter_get_index c4wcounter.dimensions [0] < c4wcounter.allocated_elem) ∧
    ((lttng_counter_add c4wcounter 0 [0] 10).global_counters.counters =
      c4wcounter.global_counters.counters.set
        (lttng_counter_get_index c4wcounter.dimensions [0]).toNat
        (toSigned (widthOf c4wcounter.config.counter_size)
          (c4wcounter.global_counters.counters.getD
            (lttng_counter_get_index c4wcounter.dimensions [0]).toNat 0 + 10)) ∧
    (lttng_counter_add c4wcounter 0 [0] 10).percpu_counters =
      c4wcounter.percpu_counters ∧
    (lttng_counter_add_step c4wcounter.config.alloc c4wcounter.config.sync c4wcounter 0
      [0] 10).2 = 0) :=
  ⟨by decide,
    c4_amended_global_alloc_global_sync c4wcounter 0 [0] 10 rfl rfl
      (by decide) (by decide)⟩

/-- C5: the migration rule of the shard-local compare-and-swap discipline
(`COUNTER_SYNC_PER_CPU` branch of `__lttng_counter_add`), for every width,
every configured step `S ≥ 0` (creation rejects negative steps), every cell
value and every delta.  Writing `n` for the wrapped sum `old + delta`: if
`n > S` the migrated amount is `S / 2` and the stored value is `n - S / 2`;
if `n < -S` the migrated amount is `-(S / 2)` and the stored value is
`n + S / 2`; otherwise nothing migrates and `n` is stored; the primitive
returns exactly the migrated amount, and `S = 0` always migrates 0. -/
theorem c5_migration_rule (w : Nat) (S old v : Int) (hw : 1 ≤ w) (hS : 0 ≤ S) :
    (toSigned w (old + v) > S →
      (cellAdd w CounterSync.PER_CPU S old v).move_sum = S / 2 ∧
      (cellAdd w CounterSync.PER_CPU S old v).stored = toSigned w (old + v) - S / 2) ∧
    (toSigned w (old + v) < -S →
      (cellAdd w CounterSync.PER_CPU S old v).move_sum = -(S / 2) ∧
      (cellAdd w CounterSync.PER_CPU S old v).stored = toSigned w (old + v) + S / 2) ∧
    (-S ≤ toSigned w (old + v) → toSigned w (old + v) ≤ S →
      (cellAdd w CounterSync.PER_CPU S old v).move_sum = 0 ∧
      (cellAdd w CounterSync.PER_CPU S old v).stored = toSigned w (old + v)) ∧
    (S = 0 → (cellAdd w CounterSync.PER_CPU S old v).move_sum = 0) := by
  have hdiv : S.tdiv 2 = S / 2 := Int.tdiv_eq_ediv hS (by omega)
  have hd0 : 0 ≤ S / 2 := Int.ediv_nonneg hS (by omega)
  have hdle : S / 2 ≤ S := Int.ediv_le_self 2 hS
  have hlo := toSigned_nonneg_bound w (old + v)
  have hhi := toSigned_lt_bound w hw (old + v)
  have hone : (0 : Int) < 2 ^ (w - 1) := by positivity
  refine ⟨?_, ?_, ?_, ?_⟩
  · intro hgt
    simp only [cellAdd, if_pos hgt, hdiv]
    refine ⟨by trivial, ?_⟩
    exact toSigned_eq_self w hw _ (by omega) (by omega)
  · intro hlt
    have hngt : ¬ (toSigned w (old + v) > S) := by omega
    simp only [cellAdd, if_neg hngt, if_pos hlt, hdiv]
    refine ⟨by trivial, ?_⟩
    have : toSigned w (old + v) - -(S / 2) = toSigned w (old + v) + S / 2 := by ring
    rw [this]
    exact toSigned_eq_self w hw _ (by omega) (by omega)
  · intro h1 h2
    have hngt : ¬ (toSigned w (old + v) > S) := by omega
    have hnlt : ¬ (toSigned w (old + v) < -S) := by omega
    simp only [cellAdd, if_neg hngt, if_neg hnlt]
    refine ⟨by trivial, ?_⟩
    have : toSigned w (old + v) - 0 = toSigned w (old + v) := by ring
    rw [this]
    exact toSigned_eq_self w hw _ (by omega) (by omega)
  · intro h0
    subst h0
    simp only [cellAdd]
    split
    · decide
    · split
      · decide
      · rfl

/-- Witness for C5 at `w = 8`, `S = 8`, `old = 5`, `v = 10` (the wrapped sum
15 exceeds the step, so 4 migrates and 11 is stored). -/
theorem c5_witness :
    (1 ≤ 8 ∧ (0 : Int) ≤ 8) ∧
    ((toSigned 8 (5 + 10) > 8 →
      (cellAdd 8 CounterSync.PER_CPU 8 5 10).move_sum = 8 / 2 ∧
      (cellAdd 8 CounterSync.PER_CPU 8 5 10).stored = toSigned 8 (5 + 10) - 8 / 2) ∧
    (toSigned 8 (5 + 10) < -8 →
      (cellAdd 8 CounterSync.PER_CPU 8 5 10).move_sum = -(8 / 2) ∧
      (cellAdd 8 CounterSync.PER_CPU 8 5 10).stored = toSigned 8 (5 + 10) + 8 / 2) ∧
    (-8 ≤ toSigned 8 (5 + 10) → toSigned 8 (5 + 10) ≤ 8 →
      (cellAdd 8 CounterSync.PER_CPU 8 5 10).move_sum = 0 ∧
      (cellAdd 8 CounterSync.PER_CPU 8 5 10).stored = toSigned 8 (5 + 10)) ∧
    ((8 : Int) = 0 → (cellAdd 8 CounterSync.PER_CPU 8 5 10).move_sum = 0)) :=
  ⟨by decide, c5_migration_rule 8 8 5 10 (by decide) (by decide)⟩

/-! ## The sequential one-shard `+1` scenario (C6) -/

/-- State of the sequential scenario: one shard-local cell, the global cell,
and the number of migrations (nonzero `move_sum` events) so far. -/
structure RunState where
  cell : Int
  global_cell : Int
  migrations : Nat
deriving DecidableEq, Repr

/-- One `add(+1)` in per-shard mode at the cell level, mirroring
`__lttng_counter_add_percpu`: the shard-local primitive
(`COUNTER_SYNC_PER_CPU`), then, iff `move_sum` is nonzero, the global
primitive (`COUNTER_SYNC_GLOBAL`) with `v = move_sum`. -/
def addOneStep (w : Nat) (S : Int) (st : RunState) : RunState :=
  let r := cellAdd w CounterSync.PER_CPU S st.cell 1
  if r.move_sum ≠ 0 then
    { cell := r.stored,
      global_cell := (cellAdd w CounterSync.GLOBAL S st.global_cell r.move_sum).stored,
      migrations := st.migrations + 1 }
  else
    { st with cell := r.stored }

/-- Iterates `k` repetitions of `add(+1)` from zeroed cells. -/
def addOneRun (w : Nat) (S : Int) : Nat → RunState
  | 0 => ⟨0, 0, 0⟩
  | k + 1 => addOneStep w S (addOneRun w S k)

/-- C6 counterexample: with `global_sum_step = 1` (a step `S > 0`, as the
claim allows) and 8-bit cells, two adds of `+1` leave the shard-local cell at
`2`, whose magnitude exceeds `S = 1` — the migration decision fires but
migrates `1 / 2 = 0`, which `__lttng_counter_add_percpu` treats as "no
migration", so the cell keeps growing past the step. -/
theorem c6_counterexample :
    (addOneRun 8 1 2).cell = 2 ∧
    ¬ (|(addOneRun 8 1 2).cell| ≤ 1) ∧
    (addOneRun 8 1 2).migrations = 0 := by decide

theorem addOneStep_no_migration (w : Nat) (S : Int) (hw : 1 ≤ w) (hS : 2 ≤ S)
    (hfit : S + 1 < 2 ^ (w - 1)) (st : RunState)
    (h0 : 0 ≤ st.cell) (h1 : st.cell < S) :
    addOneStep w S st = { st with cell := st.cell + 1 } := by
  have hone : (0 : Int) < 2 ^ (w - 1) := by positivity
  have hn0 : toSigned w (st.cell + 1) = st.cell + 1 :=
    toSigned_eq_self w hw _ (by omega) (by omega)
  unfold addOneStep
  simp only [cellAdd, hn0]
  rw [if_neg (show ¬ (S < st.cell + 1) from by omega),
    if_neg (show ¬ (st.cell + 1 < -S) from by omega)]
  simp [hn0]

theorem addOneStep_migration (w : Nat) (S : Int) (hw : 1 ≤ w) (hS : 2 ≤ S)
    (hfit : S + 1 < 2 ^ (w - 1)) (st : RunState) (h1 : st.cell = S) :
    addOneStep w S st =
      { cell := S + 1 - S / 2,
        global_cell := toSigned w (st.global_cell + S / 2),
        migrations := st.migrations + 1 } := by
  have hone : (0 : Int) < 2 ^ (w - 1) := by positivity
  have hdm := Int.ediv_add_emod S 2
  have hm0 := Int.emod_nonneg S (by norm_num : (2 : Int) ≠ 0)
  have hm1 := Int.emod_lt_of_pos S (by norm_num : (0 : Int) < 2)
  have hdiv : S.tdiv 2 = S / 2 := Int.tdiv_eq_ediv (by omega) (by omega)
  have hn0 : toSigned w (st.cell + 1) = st.cell + 1 :=
    toSigned_eq_self w hw _ (by omega) (by omega)
  have hgt : toSigned w (st.cell + 1) > S := by omega
  have hstored : toSigned w (toSigned w (st.cell + 1) - S / 2) = S + 1 - S / 2 := by
    rw [hn0, h1]
    exact toSigned_eq_self w hw _ (by omega) (by omega)
  have hmove : S / 2 ≠ 0 := by omega
  unfold addOneStep
  simp only [cellAdd, if_pos hgt, hdiv, hstored]
  rw [if_pos hmove]

/-- Invariant of the sequential `+1` run: the shard-local cell stays within
`[0, S]` and the global cell holds the width-wrapped value of
`migrations * (S / 2)`. -/
theorem addOneRun_invariant (w : Nat) (S : Int) (hw : 1 ≤ w) (hS : 2 ≤ S)
    (hfit : S + 1 < 2 ^ (w - 1)) (k : Nat) :
    0 ≤ (addOneRun w S k).cell ∧ (addOneRun w S k).cell ≤ S ∧
    (addOneRun w S k).global_cell =
      toSigned w (((addOneRun w S k).migrations : Int) * (S / 2)) := by
  have hone : (0 : Int) < 2 ^ (w - 1) := by positivity
  have hdm := Int.ediv_add_emod S 2
  have hm0 := Int.emod_nonneg S (by norm_num : (2 : Int) ≠ 0)
  have hm1 := Int.emod_lt_of_pos S (by norm_num : (0 : Int) < 2)
  induction k with
  | zero =>
    dsimp only [addOneRun]
    refine ⟨le_refl 0, by omega, ?_⟩
    rw [Nat.cast_zero, zero_mul, toSigned_eq_self w hw 0 (by omega) (by omega)]
  | succ k ih =>
    obtain ⟨ih0, ih1, ihg⟩ := ih
    rcases lt_or_eq_of_le ih1 with hlt | heq
    · have hstep := addOneStep_no_migration w S hw hS hfit (addOneRun w S k) ih0 hlt
      dsimp only [addOneRun]
      rw [hstep]
      dsimp only
      exact ⟨by omega, by omega, ihg⟩
    · have hstep := addOneStep_migration w S hw hS hfit (addOneRun w S k) heq
      dsimp only [addOneRun]
      rw [hstep]
      dsimp only
      refine ⟨by omega, by omega, ?_⟩
      rw [ihg, toSigned_add_left]
      congr 1
      push_cast
      ring

/-- C6 amended: for `2 ≤ S` with `S + 1` representable at the cell width, a
sequential run of `add(+1)` from zeroed cells in per-shard mode keeps the
shard-local cell's magnitude at or below `S` after every add, and after `K`
migrations the global cell holds `K * (S / 2)` wrapped at the cell width.
(The original claim, for every `S > 0` and with the global value exactly
`K * (S / 2)`, fails at `S = 1`, where the migration amount `S / 2` is 0.) -/
theorem c6_amended_migration_bound (w : Nat) (S : Int) (k : Nat)
    (hw : 1 ≤ w) (hS : 2 ≤ S) (hfit : S + 1 < 2 ^ (w - 1)) :
    |(addOneRun w S k).cell| ≤ S ∧
    (addOneRun w S k).global_cell =
      toSigned w (((addOneRun w S k).migrations : Int) * (S / 2)) := by
  obtain ⟨h0, h1, hg⟩ := addOneRun_invariant w S hw hS hfit k
  exact ⟨by rw [abs_of_nonneg h0]; exact h1, hg⟩

/-- Witness for the amended C6 at `w = 8`, `S = 4`, ten adds: the cell ends
at `3` (three migrations of 2 each occurred) and the global cell holds 6. -/
theorem c6_witness :
    (1 ≤ 8 ∧ (2 : Int) ≤ 4 ∧ (4 : Int) + 1 < 2 ^ (8 - 1)) ∧
    (|(addOneRun 8 4 10).cell| ≤ 4 ∧
     (addOneRun 8 4 10).global_cell =
       toSigned 8 (((addOneRun 8 4 10).migrations : Int) * (4 / 2))) :=
  ⟨by decide, c6_amended_migration_bound 8 4 10 (by decide) (by decide) (by decide)⟩

theorem toSigned_idem (w : Nat) (x : Int) :
    toSigned w (toSigned w x) = toSigned w x := by
  have h := toSigned_add_left w x 0
  simpa using h

/-- C7 counterexample, two independent failures of the claim as stated.
First, in a shard-local add whose migration decision fires, the stored value
is NOT `old + delta` wrapped at the width, and the sticky rule stated with
"not greater than old" does not match the code: at width 8,
`global_sum_step = 8`, `old = 5`, `delta = 4`, the wrapped sum 9 exceeds the
step, so 4 migrates and 5 is stored — not `toSigned 8 (5 + 4) = 9` — and
although `delta > 0` and the stored value is not greater than `old` (5 ≤ 5),
the code's overflow flag (strict `n < old`, line 108) stays false.  Second,
the underflow rule is not the symmetric one at width 32: `-U32_MAX` is
computed in unsigned arithmetic and equals 1, so for `old = 0`,
`delta = -1` (stored `-1 < old`, magnitude nowhere near the maximum) the
code raises the underflow flag that the symmetric rule leaves clear. -/
theorem c7_counterexample :
    (cellAdd 8 CounterSync.PER_CPU 8 5 4).stored = 5 ∧
    toSigned 8 (5 + 4) = 9 ∧
    (cellAdd 8 CounterSync.PER_CPU 8 5 4).stored ≠ toSigned 8 (5 + 4) ∧
    (4 : Int) > 0 ∧
    (cellAdd 8 CounterSync.PER_CPU 8 5 4).stored ≤ 5 ∧
    (cellAdd 8 CounterSync.PER_CPU 8 5 4).overflow = false ∧
    (cellAdd 32 CounterSync.GLOBAL 0 0 (-1)).stored = -1 ∧
    ¬ ((0 : Int) ≤ (cellAdd 32 CounterSync.GLOBAL 0 0 (-1)).stored) ∧
    ¬ ((-1 : Int) ≤ -(2 ^ 32 - 1)) ∧
    (cellAdd 32 CounterSync.GLOBAL 0 0 (-1)).underflow = true := by decide

/-- C7 amended: restricted to adds in which the migration decision does not
fire (`move_sum = 0` — in particular every `COUNTER_SYNC_GLOBAL` add): the
new cell value is `old + delta` under unsigned wraparound at the cell width;
the overflow flag is raised exactly when `delta > 0` and the stored value is
not greater than `old`, or (below 64-bit) the delta reaches the type's
unsigned maximum `2^w - 1`.  The underflow rule is symmetric at widths 8, 16
and 64, but at width 32 — where C computes `-U32_MAX` in unsigned arithmetic,
yielding 1 — the underflow flag is raised exactly when `delta < 0`.  The
8-bit scenario holds: adding 200 to a zeroed 8-bit cell stores `200 mod 256`
reinterpreted as signed 8-bit (`-56`), sets the overflow sticky bit, and the
bit stays set after a subsequent in-range add of 1. -/
theorem c7_amended_wraparound_and_sticky (w : Nat) (sync : CounterSync)
    (S old v : Int)
    (hw : w = 8 ∨ w = 16 ∨ w = 32 ∨ w = 64)
    (hold1 : -(2 ^ (w - 1)) ≤ old) (hold2 : old < 2 ^ (w - 1))
    (hv1 : -(2 ^ 63) < v) (hv2 : v < 2 ^ 63)
    (hmove : (cellAdd w sync S old v).move_sum = 0) :
    (cellAdd w sync S old v).stored = toSigned w (old + v) ∧
    ((cellAdd w sync S old v).overflow = true ↔
      (0 < v ∧ ((cellAdd w sync S old v).stored ≤ old ∨ (w ≠ 64 ∧ 2 ^ w - 1 ≤ v)))) ∧
    ((w = 8 ∨ w = 16 ∨ w = 64) →
      ((cellAdd w sync S old v).underflow = true ↔
        (v < 0 ∧ (old ≤ (cellAdd w sync S old v).stored ∨ (w ≠ 64 ∧ v ≤ -(2 ^ w - 1)))))) ∧
    (w = 32 → ((cellAdd w sync S old v).underflow = true ↔ v < 0)) ∧
    ((layoutAdd 8 CounterSync.GLOBAL 0 (zeroLayout 1) 0 200).1.counters = [-56] ∧
     toSigned 8 200 = -56 ∧
     (layoutAdd 8 CounterSync.GLOBAL 0 (zeroLayout 1) 0 200).1.overflow_bitmap = [true] ∧
     (layoutAdd 8 CounterSync.GLOBAL 0
       (layoutAdd 8 CounterSync.GLOBAL 0 (zeroLayout 1) 0 200).1 0 1).1.counters = [-55] ∧
     (layoutAdd 8 CounterSync.GLOBAL 0
       (layoutAdd 8 CounterSync.GLOBAL 0 (zeroLayout 1) 0 200).1 0 1).1.overflow_bitmap =
       [true]) := by
  have hw1 : 1 ≤ w := by rcases hw with h | h | h | h <;> omega
  have hstored : (cellAdd w sync S old v).stored = toSigned w (old + v) := by
    cases sync with
    | PER_CPU =>
      have : (cellAdd w CounterSync.PER_CPU S old v).stored =
          toSigned w (toSigned w (old + v) -
            (cellAdd w CounterSync.PER_CPU S old v).move_sum) := rfl
      rw [this, hmove, sub_zero, toSigned_idem]
    | GLOBAL => rfl
  have hoflag : (cellAdd w sync S old v).overflow =
      overflowCheck w old v (cellAdd w sync S old v).stored := by
    cases sync with
    | PER_CPU =>
      have : (cellAdd w CounterSync.PER_CPU S old v).overflow =
          overflowCheck w old v (toSigned w (toSigned w (old + v) -
            (cellAdd w CounterSync.PER_CPU S old v).move_sum)) := rfl
      rw [this, hmove, sub_zero, toSigned_idem, ← hstored]
    | GLOBAL => rfl
  have huflag : (cellAdd w sync S old v).underflow =
      underflowCheck w old v (cellAdd w sync S old v).stored := by
    cases sync with
    | PER_CPU =>
      have : (cellAdd w CounterSync.PER_CPU S old v).underflow =
          underflowCheck w old v (toSigned w (toSigned w (old + v) -
            (cellAdd w CounterSync.PER_CPU S old v).move_sum)) := rfl
      rw [this, hmove, sub_zero, toSigned_idem, ← hstored]
    | GLOBAL => rfl
  refine ⟨hstored, ?_, ?_, ?_, by decide⟩
  · -- overflow flag
    rw [hoflag]
    unfold overflowCheck
    simp only [Bool.and_eq_true, Bool.or_eq_true, decide_eq_true_eq,
      bne_iff_ne, ne_eq]
    constructor
    · rintro ⟨hv, hcase | hcase⟩
      · exact ⟨hv, Or.inr ⟨hcase.1, hcase.2⟩⟩
      · exact ⟨hv, Or.inl (le_of_lt hcase)⟩
    · rintro ⟨hv, hle | hdisj⟩
      · rcases lt_or_eq_of_le hle with hlt | heqv
        · exact ⟨hv, Or.inr hlt⟩
        · -- stored = old forces 2^w ∣ v
          have hdvd : (2 ^ w : Int) ∣ v := by
            have h1 := toSigned_sub_dvd w (old + v)
            rw [← hstored, heqv] at h1
            simpa using h1
          have hge : (2 ^ w : Int) ≤ v := Int.le_of_dvd hv hdvd
          rcases hw with h | h | h | h
          · subst h; exact ⟨hv, Or.inl ⟨by omega, by omega⟩⟩
          · subst h; exact ⟨hv, Or.inl ⟨by omega, by omega⟩⟩
          · subst h; exact ⟨hv, Or.inl ⟨by omega, by omega⟩⟩
          · subst h; omega
      · exact ⟨hv, Or.inl hdisj⟩
  · -- underflow flag at widths 8, 16, 64
    intro hw3
    have hne32 : w ≠ 32 := by rcases hw3 with h | h | h <;> omega
    have hnegU : negUMax w = -(2 ^ w - 1) := by
      unfold negUMax
      rw [if_neg hne32]
    rw [huflag]
    unfold underflowCheck
    rw [hnegU]
    simp only [Bool.and_eq_true, Bool.or_eq_true, decide_eq_true_eq,
      bne_iff_ne, ne_eq]
    constructor
    · rintro ⟨hv, hcase | hcase⟩
      · exact ⟨hv, Or.inr ⟨hcase.1, hcase.2⟩⟩
      · exact ⟨hv, Or.inl (le_of_lt hcase)⟩
    · rintro ⟨hv, hle | hdisj⟩
      · rcases lt_or_eq_of_le hle with hlt | heqv
        · exact ⟨hv, Or.inr hlt⟩
        · have hdvd : (2 ^ w : Int) ∣ v := by
            have h1 := toSigned_sub_dvd w (old + v)
            rw [← hstored, ← heqv] at h1
            simpa using h1
          have hge : (2 ^ w : Int) ≤ -v := Int.le_of_dvd (by omega) (Dvd.dvd.neg_right hdvd)
          rcases hw3 with h | h | h
          · subst h; exact ⟨hv, Or.inl ⟨by omega, by omega⟩⟩
          · subst h; exact ⟨hv, Or.inl ⟨by omega, by omega⟩⟩
          · subst h; omega
      · exact ⟨hv, Or.inl hdisj⟩
  · -- underflow flag at width 32: every negative delta raises it
    intro h32
    have hnegU : negUMax w = 1 := by
      unfold negUMax
      rw [if_pos h32]
    rw [huflag]
    unfold underflowCheck
    rw [hnegU]
    simp only [Bool.and_eq_true, Bool.or_eq_true, decide_eq_true_eq,
      bne_iff_ne, ne_eq]
    constructor
    · rintro ⟨hv, _⟩
      exact hv
    · intro hv
      exact ⟨hv, Or.inl ⟨by omega, by omega⟩⟩

/-- Witness for the amended C7 at `w = 8`, global sync, `old = 0`,
`v = 200`. -/
theorem c7_witness :
    ((8 : Nat) = 8 ∧ -(2 ^ (8 - 1) : Int) ≤ 0 ∧ (0 : Int) < 2 ^ (8 - 1) ∧
      -(2 ^ 63 : Int) < 200 ∧ (200 : Int) < 2 ^ 63 ∧
      (cellAdd 8 CounterSync.GLOBAL 0 0 200).move_sum = 0) ∧
    ((cellAdd 8 CounterSync.GLOBAL 0 0 200).stored = toSigned 8 (0 + 200) ∧
    ((cellAdd 8 CounterSync.GLOBAL 0 0 200).overflow = true ↔
      (0 < (200 : Int) ∧ ((cellAdd 8 CounterSync.GLOBAL 0 0 200).stored ≤ 0 ∨
        ((8 : Nat) ≠ 64 ∧ (2 ^ 8 - 1 : Int) ≤ 200)))) ∧
    (((8 : Nat) = 8 ∨ (8 : Nat) = 16 ∨ (8 : Nat) = 64) →
      ((cellAdd 8 CounterSync.GLOBAL 0 0 200).underflow = true ↔
        ((200 : Int) < 0 ∧ ((0 : Int) ≤ (cellAdd 8 CounterSync.GLOBAL 0 0 200).stored ∨
          ((8 : Nat) ≠ 64 ∧ (200 : Int) ≤ -(2 ^ 8 - 1)))))) ∧
    ((8 : Nat) = 32 →
      ((cellAdd 8 CounterSync.GLOBAL 0 0 200).underflow = true ↔ (200 : Int) < 0)) ∧
    ((layoutAdd 8 CounterSync.GLOBAL 0 (zeroLayout 1) 0 200).1.counters = [-56] ∧
     toSigned 8 200 = -56 ∧
     (layoutAdd 8 CounterSync.GLOBAL 0 (zeroLayout 1) 0 200).1.overflow_bitmap = [true] ∧
     (layoutAdd 8 CounterSync.GLOBAL 0
       (layoutAdd 8 CounterSync.GLOBAL 0 (zeroLayout 1) 0 200).1 0 1).1.counters = [-55] ∧
     (layoutAdd 8 CounterSync.GLOBAL 0
       (layoutAdd 8 CounterSync.GLOBAL 0 (zeroLayout 1) 0 200).1 0 1).1.overflow_bitmap =
       [true])) :=
  ⟨by decide,
    c7_amended_wraparound_and_sticky 8 CounterSync.GLOBAL 0 0 200 (Or.inl rfl)
      (by decide) (by decide) (by decide) (by decide) (by decide)⟩

/-! ## C8: aggregate -/

/-- Flat offset of an index tuple as a list position. -/
def flatIndex (c : LibCounter) (idxs : List Int) : Nat :=
  (lttng_counter_get_index c.dimensions idxs).toNat

/-- The layout of shard `cpu`. -/
def shardLayout (c : LibCounter) (cpu : Nat) : LibCounterLayout :=
  c.percpu_counters.getD cpu (zeroLayout 0)

/-- Shard `cpu`'s cell value at the resolved offset. -/
def cellAt (c : LibCounter) (idxs : List Int) (cpu : Nat) : Int :=
  (shardLayout c cpu).counters.getD (flatIndex c idxs) 0

/-- Shard `cpu`'s sticky overflow bit at the resolved offset. -/
def shardStickyOf (c : LibCounter) (idxs : List Int) (cpu : Nat) : Bool :=
  (shardLayout c cpu).overflow_bitmap.getD (flatIndex c idxs) false

/-- Shard `cpu`'s sticky underflow bit at the resolved offset. -/
def shardStickyUf (c : LibCounter) (idxs : List Int) (cpu : Nat) : Bool :=
  (shardLayout c cpu).underflow_bitmap.getD (flatIndex c idxs) false

/-- The global cell's value at the resolved offset. -/
def vGlobal (c : LibCounter) (idxs : List Int) : Int :=
  c.global_counters.counters.getD (flatIndex c idxs) 0

/-- The global cell's sticky overflow bit at the resolved offset. -/
def gStickyOf (c : LibCounter) (idxs : List Int) : Bool :=
  c.global_counters.overflow_bitmap.getD (flatIndex c idxs) false

/-- The global cell's sticky underflow bit at the resolved offset. -/
def gStickyUf (c : LibCounter) (idxs : List Int) : Bool :=
  c.global_counters.underflow_bitmap.getD (flatIndex c idxs) false

/-- Characterisation, following the spec's words, of the "accumulation wrap"
overflow events of `aggregate`: folding the shard cell values into an
accumulator with 64-bit unsigned wraparound, an overflow event is a positive
value whose accumulation decreases the (signed) accumulator. -/
def specAccumWrapOverflow : List Int → Int → Bool
  | [], _ => false
  | v :: rest, acc =>
    let acc1 := toSigned 64 (acc + v)
    (decide (0 < v) && decide (acc1 < acc)) || specAccumWrapOverflow rest acc1

/-- Symmetric characterisation of the "accumulation wrap" underflow events. -/
def specAccumWrapUnderflow : List Int → Int → Bool
  | [], _ => false
  | v :: rest, acc =>
    let acc1 := toSigned 64 (acc + v)
    (decide (v < 0) && decide (acc < acc1)) || specAccumWrapUnderflow rest acc1

theorem read_shard_ok (c : LibCounter) (idxs : List Int)
    (halloc : c.config.alloc = CounterAlloc.PER_CPU)
    (hidx : lttng_counter_get_index c.dimensions idxs < c.allocated_elem)
    (cpu : Nat) (hcpu : cpu < c.percpu_counters.length) :
    lttng_counter_read c idxs (Int.ofNat cpu) =
      Except.ok (cellAt c idxs cpu, shardStickyOf c idxs cpu, shardStickyUf c idxs cpu) := by
  have h0 : (0 : Int) ≤ Int.ofNat cpu := Int.ofNat_nonneg cpu
  have h1 : ¬ (Int.ofNat cpu ≥ (c.percpu_counters.length : Int)) :=
    not_le.mpr (Int.ofNat_lt.mpr hcpu)
  unfold lttng_counter_read
  simp [halloc, not_le.mpr hidx, h0, h1, cellAt, shardStickyOf, shardStickyUf,
    shardLayout, flatIndex]
  exact hcpu

theorem read_global_ok (c : LibCounter) (idxs : List Int)
    (hidx : lttng_counter_get_index c.dimensions idxs < c.allocated_elem) :
    lttng_counter_read c idxs (-1) =
      Except.ok (vGlobal c idxs, gStickyOf c idxs, gStickyUf c idxs) := by
  unfold lttng_counter_read
  cases halloc : c.config.alloc <;>
    simp [halloc, not_le.mpr hidx, vGlobal, gStickyOf, gStickyUf, flatIndex]

theorem aggregateCpus_spec (c : LibCounter) (idxs : List Int)
    (halloc : c.config.alloc = CounterAlloc.PER_CPU)
    (hidx : lttng_counter_get_index c.dimensions idxs < c.allocated_elem)
    (cpus : List Nat) :
    (∀ cpu ∈ cpus, cpu < c.percpu_counters.length) →
    ∀ (sum0 : Int) (of0 uf0 : Bool),
      -(2 ^ 63) ≤ sum0 → sum0 < 2 ^ 63 →
      aggregateCpus c idxs cpus (sum0, of0, uf0) =
        Except.ok
          (toSigned 64 (sum0 + (cpus.map (cellAt c idxs)).sum),
           of0 || (cpus.map (shardStickyOf c idxs)).any id ||
             specAccumWrapOverflow (cpus.map (cellAt c idxs)) sum0,
           uf0 || (cpus.map (shardStickyUf c idxs)).any id ||
             specAccumWrapUnderflow (cpus.map (cellAt c idxs)) sum0) := by
  induction cpus with
  | nil =>
    intro _ sum0 of0 uf0 hs1 hs2
    show Except.ok (sum0, of0, uf0) = _
    rw [List.map_nil, List.map_nil, List.map_nil, List.sum_nil, add_zero,
      toSigned_eq_self 64 (by omega) sum0 hs1 hs2]
    simp [specAccumWrapOverflow, specAccumWrapUnderflow]
  | cons cpu rest ih =>
    intro hmem sum0 of0 uf0 hs1 hs2
    have hcpu : cpu < c.percpu_counters.length := hmem cpu (List.mem_cons_self cpu rest)
    have hrest : ∀ x ∈ rest, x < c.percpu_counters.length :=
      fun x hx => hmem x (List.mem_cons_of_mem cpu hx)
    have hread := read_shard_ok c idxs halloc hidx cpu hcpu
    have hb1 : -(2 ^ 63) ≤ toSigned 64 (sum0 + cellAt c idxs cpu) :=
      toSigned_nonneg_bound 64 _
    have hb2 : toSigned 64 (sum0 + cellAt c idxs cpu) < 2 ^ 63 :=
      toSigned_lt_bound 64 (by omega) _
    have hstep : aggregateCpus c idxs (cpu :: rest) (sum0, of0, uf0) =
        aggregateCpus c idxs rest
          (toSigned 64 (sum0 + cellAt c idxs cpu),
           of0 || shardStickyOf c idxs cpu ||
             (decide (0 < cellAt c idxs cpu) &&
              decide (toSigned 64 (sum0 + cellAt c idxs cpu) < sum0)),
           uf0 || shardStickyUf c idxs cpu ||
             (decide (cellAt c idxs cpu < 0) &&
              decide (sum0 < toSigned 64 (sum0 + cellAt c idxs cpu)))) := by
      simp only [aggregateCpus]
      rw [hread]
      dsimp only
      by_cases hA : 0 < cellAt c idxs cpu ∧ toSigned 64 (sum0 + cellAt c idxs cpu) < sum0
      · have hnv : ¬ (cellAt c idxs cpu < 0) := by omega
        rw [if_pos hA]
        simp [hA.1, hA.2, hnv]
      · rw [if_neg hA]
        by_cases hB : cellAt c idxs cpu < 0 ∧ sum0 < toSigned 64 (sum0 + cellAt c idxs cpu)
        · have hnv : ¬ (0 < cellAt c idxs cpu) := by omega
          rw [if_pos hB]
          simp [hB.1, hB.2, hnv]
        · rw [if_neg hB]
          have hof : (decide (0 < cellAt c idxs cpu) &&
              decide (toSigned 64 (sum0 + cellAt c idxs cpu) < sum0)) = false := by
            rcases Decidable.em (0 < cellAt c idxs cpu) with h | h
            · have hns : ¬ (toSigned 64 (sum0 + cellAt c idxs cpu) < sum0) :=
                fun hh => hA ⟨h, hh⟩
              simp [hns]
            · simp [h]
          have huf : (decide (cellAt c idxs cpu < 0) &&
              decide (sum0 < toSigned 64 (sum0 + cellAt c idxs cpu))) = false := by
            rcases Decidable.em (cellAt c idxs cpu < 0) with h | h
            · have hns : ¬ (sum0 < toSigned 64 (sum0 + cellAt c idxs cpu)) :=
                fun hh => hB ⟨h, hh⟩
              simp [hns]
            · simp [h]
          rw [hof, huf]
          simp
    rw [hstep, ih hrest _ _ _ hb1 hb2]
    refine congrArg Except.ok ?_
    refine Prod.ext ?_ (Prod.ext ?_ ?_)
    · show toSigned 64 (toSigned 64 (sum0 + cellAt c idxs cpu) +
        (rest.map (cellAt c idxs)).sum) = _
      rw [toSigned_add_left, add_assoc]
      rw [List.map_cons, List.sum_cons]
    · show _ = (of0 || ((cpu :: rest).map (shardStickyOf c idxs)).any id ||
        specAccumWrapOverflow ((cpu :: rest).map (cellAt c idxs)) sum0)
      rw [List.map_cons, List.map_cons, List.any_cons]
      show _ = (of0 || (shardStickyOf c idxs cpu ||
          (rest.map (shardStickyOf c idxs)).any id) ||
        ((decide (0 < cellAt c idxs cpu) &&
          decide (toSigned 64 (sum0 + cellAt c idxs cpu) < sum0)) ||
          specAccumWrapOverflow (rest.map (cellAt c idxs))
            (toSigned 64 (sum0 + cellAt c idxs cpu))))
      rw [Bool.eq_iff_iff]
      simp only [Bool.or_eq_true, id]
      tauto
    · show _ = (uf0 || ((cpu :: rest).map (shardStickyUf c idxs)).any id ||
        specAccumWrapUnderflow ((cpu :: rest).map (cellAt c idxs)) sum0)
      rw [List.map_cons, List.map_cons, List.any_cons]
      show _ = (uf0 || (shardStickyUf c idxs cpu ||
          (rest.map (shardStickyUf c idxs)).any id) ||
        ((decide (cellAt c idxs cpu < 0) &&
          decide (sum0 < toSigned 64 (sum0 + cellAt c idxs cpu))) ||
          specAccumWrapUnderflow (rest.map (cellAt c idxs))
            (toSigned 64 (sum0 + cellAt c idxs cpu))))
      rw [Bool.eq_iff_iff]
      simp only [Bool.or_eq_true, id]
      tauto

theorem range_map_getD {α β : Type} (l : List α) (d : α) (f : α → β) :
    (List.range l.length).map (fun i => f (l.getD i d)) = l.map f := by
  induction l with
  | nil => simp
  | cons a t ihl =>
    rw [List.length_cons, List.range_succ_eq_map, List.map_cons, List.map_map]
    refine congrArg₂ List.cons ?_ ?_
    · simp
    · rw [← ihl]
      refine List.map_congr_left ?_
      intro i _
      simp [Function.comp, List.getD_cons_succ]

/-- The shard Cell Storage instances the aggregation loop folds over: every
per-cpu layout when the allocation mode is `COUNTER_ALLOC_PER_CPU`, none when
it is `COUNTER_ALLOC_GLOBAL` (counter.c lines 301-325: the per-cpu read loop
runs only in the `COUNTER_ALLOC_PER_CPU` case). -/
def aggregatedShards (c : LibCounter) : List LibCounterLayout :=
  match c.config.alloc with
  | CounterAlloc.PER_CPU => c.percpu_counters
  | CounterAlloc.GLOBAL => []

/-- C8: for every counter (either allocation mode) and every index tuple
whose resolved offset is within the allocation, `lttng_counter_aggregate`
succeeds and returns: the 64-bit unsigned-wraparound sum of the global cell's
value and every aggregated shard's cell value (every per-cpu shard in
`PER_SHARD` mode, none in `GLOBAL_ONLY` mode, where the result is exactly the
global cell's value and its sticky flags); an overflow flag that is exactly
the OR of the global cell's sticky bit, every aggregated shard's sticky bit,
and the accumulation-wrap events (so in particular it is set whenever any
single shard's sticky overflow bit is set); and the symmetric underflow flag.
When the global cell is 0 and all `C` aggregated shards hold the same
in-range value `M` (the state after `C` shards were each incremented `M`
times with no migration triggered), the returned sum is `C * M`. -/
theorem c8_aggregate_sum_and_flags (c : LibCounter) (idxs : List Int)
    (hidx : lttng_counter_get_index c.dimensions idxs < c.allocated_elem)
    (hvg1 : -(2 ^ 63) ≤ vGlobal c idxs) (hvg2 : vGlobal c idxs < 2 ^ 63) :
    ∃ s of uf, lttng_counter_aggregate c idxs = Except.ok (s, of, uf) ∧
      s = toSigned 64 (vGlobal c idxs +
        ((aggregatedShards c).map
          (fun l => l.counters.getD (flatIndex c idxs) 0)).sum) ∧
      of = (gStickyOf c idxs ||
        ((aggregatedShards c).map
          (fun l => l.overflow_bitmap.getD (flatIndex c idxs) false)).any id ||
        specAccumWrapOverflow
          ((aggregatedShards c).map (fun l => l.counters.getD (flatIndex c idxs) 0))
          (vGlobal c idxs)) ∧
      uf = (gStickyUf c idxs ||
        ((aggregatedShards c).map
          (fun l => l.underflow_bitmap.getD (flatIndex c idxs) false)).any id ||
        specAccumWrapUnderflow
          ((aggregatedShards c).map (fun l => l.counters.getD (flatIndex c idxs) 0))
          (vGlobal c idxs)) ∧
      (c.config.alloc = CounterAlloc.PER_CPU →
        aggregatedShards c = c.percpu_counters) ∧
      (c.config.alloc = CounterAlloc.GLOBAL →
        s = vGlobal c idxs ∧ of = gStickyOf c idxs ∧ uf = gStickyUf c idxs) ∧
      (∀ l ∈ aggregatedShards c,
        l.overflow_bitmap.getD (flatIndex c idxs) false = true → of = true) ∧
      (∀ M : Int, 0 ≤ M → vGlobal c idxs = 0 →
        (∀ l ∈ aggregatedShards c, l.counters.getD (flatIndex c idxs) 0 = M) →
        ((aggregatedShards c).length : Int) * M < 2 ^ 63 →
        s = ((aggregatedShards c).length : Int) * M) := by
  cases halloc : c.config.alloc with
  | PER_CPU =>
    have hsh : aggregatedShards c = c.percpu_counters := by
      unfold aggregatedShards
      rw [halloc]
    rw [hsh]
    have hcells : (List.range c.percpu_counters.length).map (cellAt c idxs) =
        c.percpu_counters.map (fun l => l.counters.getD (flatIndex c idxs) 0) :=
      range_map_getD c.percpu_counters (zeroLayout 0)
        (fun l => l.counters.getD (flatIndex c idxs) 0)
    have hsof : (List.range c.percpu_counters.length).map (shardStickyOf c idxs) =
        c.percpu_counters.map
          (fun l => l.overflow_bitmap.getD (flatIndex c idxs) false) :=
      range_map_getD c.percpu_counters (zeroLayout 0)
        (fun l => l.overflow_bitmap.getD (flatIndex c idxs) false)
    have hsuf : (List.range c.percpu_counters.length).map (shardStickyUf c idxs) =
        c.percpu_counters.map
          (fun l => l.underflow_bitmap.getD (flatIndex c idxs) false) :=
      range_map_getD c.percpu_counters (zeroLayout 0)
        (fun l => l.underflow_bitmap.getD (flatIndex c idxs) false)
    have hspec := aggregateCpus_spec c idxs halloc hidx
      (List.range c.percpu_counters.length)
      (fun cpu hcpu => List.mem_range.mp hcpu)
      (vGlobal c idxs) (gStickyOf c idxs) (gStickyUf c idxs) hvg1 hvg2
    rw [hcells, hsof, hsuf] at hspec
    have hagg : lttng_counter_aggregate c idxs =
        aggregateCpus c idxs (List.range c.percpu_counters.length)
          (vGlobal c idxs, gStickyOf c idxs, gStickyUf c idxs) := by
      unfold lttng_counter_aggregate
      rw [read_global_ok c idxs hidx, halloc]
    refine ⟨_, _, _, by rw [hagg, hspec], rfl, rfl, rfl, fun _ => rfl,
      fun hg => absurd hg (by decide), ?_, ?_⟩
    · intro l hl hbit
      have hany : (c.percpu_counters.map
          (fun l => l.overflow_bitmap.getD (flatIndex c idxs) false)).any id = true := by
        rw [List.any_eq_true]
        exact ⟨_, List.mem_map_of_mem _ hl, hbit⟩
      rw [hany]
      cases gStickyOf c idxs <;> simp
    · intro M hM0 hg0 hall hlt
      have hmap : c.percpu_counters.map (fun l => l.counters.getD (flatIndex c idxs) 0) =
          List.replicate c.percpu_counters.length M := by
        refine List.eq_replicate_iff.mpr ⟨by simp, ?_⟩
        intro b hb
        obtain ⟨l', hl', rfl⟩ := List.mem_map.mp hb
        exact hall l' hl'
      rw [hmap, hg0, List.sum_replicate, zero_add, nsmul_eq_mul]
      refine toSigned_eq_self 64 (by omega) _ ?_ ?_
      · have : (0 : Int) ≤ (c.percpu_counters.length : Int) * M :=
          mul_nonneg (by positivity) hM0
        omega
      · exact hlt
  | GLOBAL =>
    have hsh : aggregatedShards c = [] := by
      unfold aggregatedShards
      rw [halloc]
    have hagg : lttng_counter_aggregate c idxs =
        Except.ok (vGlobal c idxs, gStickyOf c idxs, gStickyUf c idxs) := by
      unfold lttng_counter_aggregate
      rw [read_global_ok c idxs hidx, halloc]
    rw [hsh]
    refine ⟨vGlobal c idxs, gStickyOf c idxs, gStickyUf c idxs, hagg, ?_, ?_, ?_,
      fun hg => absurd hg (by decide), fun _ => ⟨rfl, rfl, rfl⟩, ?_, ?_⟩
    · rw [List.map_nil, List.sum_nil, add_zero,
        toSigned_eq_self 64 (by omega) _ hvg1 hvg2]
    · rw [List.map_nil, List.map_nil]
      simp [specAccumWrapOverflow]
    · rw [List.map_nil, List.map_nil]
      simp [specAccumWrapUnderflow]
    · intro l hl
      simp at hl
    · intro M hM0 hg0 hall hlt
      simp [hg0]

/-- The counter of the C8 witness: one dimension with `max_nr_elem = 0` (two
allocated slots), two shards each holding 3 in cell 0, shard 0's sticky
overflow bit set, zeroed global storage, `COUNTER_ALLOC_PER_CPU` mode. -/
def c8wcounter : LibCounter :=
  { dimensions := [⟨0, 1⟩],
    allocated_elem := 2,
    global_sum_step := 0,
    config := ⟨CounterAlloc.PER_CPU, CounterSync.PER_CPU, CounterArithmetic.OVERFLOW, 8⟩,
    global_counters := zeroLayout 2,
    percpu_counters :=
      [{ counters := [3, 0], underflow_bitmap := [false, false],
         overflow_bitmap := [true, false] },
       { counters := [3, 0], underflow_bitmap := [false, false],
         overflow_bitmap := [false, false] }],
    percpu_backing_allocated := true }

/-- Witness for C8 at the concrete two-shard counter. -/
theorem c8_witness :
    (lttng_counter_get_index c8wcounter.dimensions [0] < c8wcounter.allocated_elem ∧
     -(2 ^ 63) ≤ vGlobal c8wcounter [0] ∧ vGlobal c8wcounter [0] < 2 ^ 63) ∧
    (∃ s of uf, lttng_counter_aggregate c8wcounter [0] = Except.ok (s, of, uf) ∧
      s = toSigned 64 (vGlobal c8wcounter [0] +
        ((aggregatedShards c8wcounter).map
          (fun l => l.counters.getD (flatIndex c8wcounter [0]) 0)).sum) ∧
      of = (gStickyOf c8wcounter [0] ||
        ((aggregatedShards c8wcounter).map
          (fun l => l.overflow_bitmap.getD (flatIndex c8wcounter [0]) false)).any id ||
        specAccumWrapOverflow
          ((aggregatedShards c8wcounter).map
            (fun l => l.counters.getD (flatIndex c8wcounter [0]) 0))
          (vGlobal c8wcounter [0])) ∧
      uf = (gStickyUf c8wcounter [0] ||
        ((aggregatedShards c8wcounter).map
          (fun l => l.underflow_bitmap.getD (flatIndex c8wcounter [0]) false)).any id ||
        specAccumWrapUnderflow
          ((aggregatedShards c8wcounter).map
            (fun l => l.counters.getD (flatIndex c8wcounter [0]) 0))
          (vGlobal c8wcounter [0])) ∧
      (c8wcounter.config.alloc = CounterAlloc.PER_CPU →
        aggregatedShards c8wcounter = c8wcounter.percpu_counters) ∧
      (c8wcounter.config.alloc = CounterAlloc.GLOBAL →
        s = vGlobal c8wcounter [0] ∧ of = gStickyOf c8wcounter [0] ∧
        uf = gStickyUf c8wcounter [0]) ∧
      (∀ l ∈ aggregatedShards c8wcounter,
        l.overflow_bitmap.getD (flatIndex c8wcounter [0]) false = true → of = true) ∧
      (∀ M : Int, 0 ≤ M → vGlobal c8wcounter [0] = 0 →
        (∀ l ∈ aggregatedShards c8wcounter,
          l.counters.getD (flatIndex c8wcounter [0]) 0 = M) →
        ((aggregatedShards c8wcounter).length : Int) * M < 2 ^ 63 →
        s = ((aggregatedShards c8wcounter).length : Int) * M)) :=
  ⟨by decide,
    c8_aggregate_sum_and_flags c8wcounter [0] (by decide) (by decide) (by decide)⟩

end LttngCounter
